import Mathlib

/-!
Verification of the civic-complaint intake and triage service.

The development shallowly embeds the JavaScript source:
* the complaint router (`routes/complaints.js`): complaint submission with the
  Gemini vision adapter, the keyword fallback classifier, the department map,
  id generation, listing/sorting/pagination, stats, and patch updates;
* the server's OTP issuance and verification handlers;
* the mongoose `Complaint` schema is used as the declared data model.

Conventions: JS strings are `String`; a field that may be `undefined` is an
`Option String` and JS truthiness on strings (`undefined` and `""` are falsy)
is `truthyS`.  Machine timestamps (`Date.now()`) are `Nat` milliseconds.
`parseFloat` results are `Option ℚ` with `none` standing for `NaN`.
`Math.random()` is modelled by the list of fractional base-36 digits of its
canonical radix-36 representation (`[]` when the value prints without a
fractional part, e.g. `0`).
-/

/-- JS truthiness of a possibly-undefined string: `undefined` and `""` are falsy. -/
def truthyS : Option String → Bool
  | none => false
  | some s => !(s == "")

/-- JS `x || d` where `x` is a possibly-undefined string and `d` a string. -/
def orElseS (v : Option String) (dflt : String) : String :=
  match v with
  | none => dflt
  | some s => if s = "" then dflt else s

/-- Substring search on character lists, the semantics of JS `String.prototype.includes`. -/
def includesAux : List Char → List Char → Bool
  | [], pat => pat.isEmpty
  | c :: rest, pat => pat.isPrefixOf (c :: rest) || includesAux rest pat

/-- JS `hay.includes(pat)`. -/
def strIncludes (hay pat : String) : Bool :=
  includesAux hay.data pat.data

/-- JS `String.prototype.toLowerCase`, character by character. -/
def toLowerStr (s : String) : String :=
  String.mk (s.data.map Char.toLower)

/-! ### Complaint id generation (`generateComplaintId`) -/

/-- Base-36 digit as produced by JS `Number.prototype.toString(36)` (lowercase). -/
def digitChar36 (d : Fin 36) : Char :=
  if d.val < 10 then Char.ofNat (48 + d.val) else Char.ofNat (87 + d.val)

/-- Fuel-driven accumulation of the base-36 digits of `n`, most significant first. -/
def natToB36Go : Nat → Nat → List Char → List Char
  | 0, _, acc => acc
  | fuel + 1, n, acc =>
    if n = 0 then acc
    else natToB36Go fuel (n / 36) (digitChar36 ⟨n % 36, Nat.mod_lt n (by decide)⟩ :: acc)

/-- JS `n.toString(36)` for a natural number. -/
def natToB36 (n : Nat) : List Char :=
  if n = 0 then [Char.ofNat 48] else natToB36Go (n + 1) n []

/-- Uppercasing of a character list, the semantics of JS `toUpperCase`. -/
def toUpperChars (l : List Char) : List Char :=
  l.map Char.toUpper

/-- `generateComplaintId` from the complaint router.  `now` is `Date.now()`;
`rnd` is the list of fractional base-36 digits of the `Math.random()` value, so
that `Math.random().toString(36).substring(2, 6)` is the first four of them
(an empty list models a random value that prints with no fractional digits,
such as `0`). -/
def generateComplaintId (now : Nat) (rnd : List (Fin 36)) : String :=
  let pfx := "CIV"
  let timestamp := String.mk (toUpperChars (natToB36 now))
  let random := String.mk (toUpperChars ((rnd.take 4).map digitChar36))
  pfx ++ "-" ++ timestamp ++ "-" ++ random

/-! ### `parseFloat` model -/

/-- Numeric value of an ASCII digit character. -/
def digitVal (c : Char) : Nat := c.toNat - 48

/-- Splits a character list into its longest prefix of decimal digits and the rest. -/
def takeDigits : List Char → List Char × List Char
  | [] => ([], [])
  | c :: cs =>
    if c.isDigit then
      let r := takeDigits cs
      (c :: r.1, r.2)
    else ([], c :: cs)

/-- Value of a list of decimal digit characters. -/
def digitsVal (ds : List Char) : Nat :=
  ds.foldl (fun a c => a * 10 + digitVal c) 0

/-- Models the JS `parseFloat` builtin on the characters of its argument:
optional sign, integer digits, optional fractional digits; trailing characters
are ignored; `none` stands for `NaN`.  (Whitespace skipping and exponents are
left out; no claim depends on them.) -/
def parseDec (cs : List Char) : Option ℚ :=
  let signSplit : Bool × List Char :=
    match cs with
    | [] => (false, [])
    | c :: rest =>
      if c = Char.ofNat 45 then (true, rest)
      else if c = Char.ofNat 43 then (false, rest)
      else (false, c :: rest)
  let ipSplit := takeDigits signSplit.2
  let fpSplit : List Char × Bool :=
    match ipSplit.2 with
    | [] => ([], false)
    | c :: rest => if c = Char.ofNat 46 then ((takeDigits rest).1, true) else ([], false)
  if ipSplit.1.isEmpty ∧ fpSplit.1.isEmpty then none
  else
    let mag : ℚ := (digitsVal ipSplit.1 : ℚ) + (digitsVal fpSplit.1 : ℚ) / ((10 : ℚ) ^ fpSplit.1.length)
    some (if signSplit.1 then -mag else mag)

/-- `parseFloat` applied to a possibly-undefined string: `parseFloat(undefined)` is `NaN`. -/
def parseFloatJS : Option String → Option ℚ
  | none => none
  | some s => parseDec s.data

/-! ### Data model -/

/-- A stored complaint record, as built by the create route (the `location`
object is inlined; `resolutionNotes` and `resolutionPhoto` are absent —
`none` — until an update writes them). -/
structure Complaint where
  memId : String
  complaintId : String
  issueType : String
  description : String
  department : String
  latitude : Option ℚ
  longitude : Option ℚ
  address : String
  citizenName : String
  citizenPhone : String
  citizenEmail : String
  photo : String
  status : String
  priority : String
  assignedTo : String
  aiAnalysis : Bool
  resolutionNotes : Option String
  resolutionPhoto : Option String
  createdAt : Nat
  updatedAt : Nat
deriving DecidableEq, Repr

/-- Normalised vision-adapter output `{issueType, priority, description}`;
each field may be missing from the parsed JSON. -/
structure AIAnalysis where
  issueType : Option String
  priority : Option String
  description : Option String
deriving DecidableEq, Repr

/-- The body and upload of a create-complaint request (`req.body` fields and
the optional `photo` file name). -/
structure SubmitReq where
  issueType : Option String
  description : String
  latitude : Option String
  longitude : Option String
  address : Option String
  citizenName : Option String
  citizenPhone : Option String
  citizenEmail : Option String
  photo : Option String
deriving DecidableEq, Repr

/-! ### Vision classification adapter (`analyzeImageWithGemini`) -/

/-- The markdown-fence stripping the adapter applies before `JSON.parse`. -/
def stripFences (t : String) : String :=
  ((t.replace "```json" "").replace "```" "").trim

/-- `analyzeImageWithGemini`.  `apiKey` is `process.env.GEMINI_API_KEY`;
`upstream` is the outcome of the network call when one is made (`Except.error`
for a thrown upstream fault); `parseJson` is the `JSON.parse` step, `none` when
parsing throws.  Returns `none` (the JS `null`, i.e. `Unavailable`) when no key
is configured — independently of `upstream`, which models that no network call
happens — and on any upstream error or parse failure. -/
def analyzeImageWithGemini (apiKey : Option String) (upstream : Except String String)
    (parseJson : String → Option AIAnalysis) : Option AIAnalysis :=
  match apiKey with
  | none => none
  | some _ =>
    match upstream with
    | Except.error _ => none
    | Except.ok text => parseJson (stripFences text)

/-! ### Fallback classifier and department map -/

/-- Lines 123–136 of the router: the keyword fallback run when the issue type
is `"other"` and the description is truthy; on no keyword match the issue type
is returned unchanged. -/
def smartFallback (issueType : String) (description : String) : String :=
  if issueType = "other" ∧ description ≠ "" then
    let lowerDesc := toLowerStr description
    if strIncludes lowerDesc "road" || strIncludes lowerDesc "pothole" ||
       strIncludes lowerDesc "crack" || strIncludes lowerDesc "hole" then "pothole"
    else if strIncludes lowerDesc "garbage" || strIncludes lowerDesc "trash" ||
       strIncludes lowerDesc "waste" || strIncludes lowerDesc "dustbin" ||
       strIncludes lowerDesc "plastic" then "garbage"
    else if strIncludes lowerDesc "light" || strIncludes lowerDesc "lamp" ||
       strIncludes lowerDesc "dark" || strIncludes lowerDesc "pole" then "streetlight"
    else if strIncludes lowerDesc "water" || strIncludes lowerDesc "leak" ||
       strIncludes lowerDesc "pipe" || strIncludes lowerDesc "drain" ||
       strIncludes lowerDesc "sewage" then "water-leakage"
    else if strIncludes lowerDesc "toilet" || strIncludes lowerDesc "bathroom" ||
       strIncludes lowerDesc "urinal" then "dirty-toilet"
    else issueType
  else issueType

/-- Lines 117–120 followed by the fallback: `issueType = issueType || 'other'`
under the guard `(!issueType || !latitude || !longitude)`, then `smartFallback`.
`latT`/`lngT` are the truthiness of the latitude and longitude strings. -/
def resolveIssueType (issueType : Option String) (description : String)
    (latT lngT : Bool) : String :=
  let it1 : String :=
    if truthyS issueType = false ∨ latT = false ∨ lngT = false then orElseS issueType "other"
    else issueType.getD ""
  smartFallback it1 description

/-- The `departmentMap` object literal; `none` for a key it does not carry.
(JS property lookup would also hit inherited `Object.prototype` members for
keys like `"constructor"`; the map is only relied on at its own keys here, so
that case is not modelled — see `protoKeys` for where it matters.) -/
def departmentMap (issueType : String) : Option String :=
  if issueType = "pothole" then some "Roads & Highway Dept"
  else if issueType = "garbage" then some "Sanitation Dept"
  else if issueType = "streetlight" then some "Energy & Power Dept"
  else if issueType = "water-leakage" then some "Water Supply Dept"
  else if issueType = "dirty-toilet" then some "Health & Hygiene Dept"
  else if issueType = "other" then some "General Administration"
  else none

/-! ### Complaint creation (the POST route body) -/

/-- The complaint record built by the create route for a given request.
`now` is `Date.now()`, `rnd` the random digits consumed by
`generateComplaintId`; `apiKey`, `upstream`, `parseJson` configure the single
potential vision-adapter call. -/
def processSubmit (apiKey : Option String) (upstream : Except String String)
    (parseJson : String → Option AIAnalysis) (req : SubmitReq) (now : Nat)
    (rnd : List (Fin 36)) : Complaint :=
  let aiAnalysis : Option AIAnalysis :=
    match req.photo with
    | some _ => analyzeImageWithGemini apiKey upstream parseJson
    | none => none
  let issueType0 : Option String :=
    match aiAnalysis with
    | some a =>
      match a.issueType with
      | some s => if s = "" then req.issueType else some s
      | none => req.issueType
    | none => req.issueType
  let description0 : String :=
    match aiAnalysis with
    | some a =>
      let aiDesc :=
        match a.description with
        | some s => if s = "" then "" else "(AI Detected: " ++ s ++ ")"
        | none => ""
      req.description ++ " " ++ aiDesc
    | none => req.description
  let issueType1 := resolveIssueType issueType0 description0
    (truthyS req.latitude) (truthyS req.longitude)
  let dept := (departmentMap issueType1).getD "General Administration"
  { memId := "mem_" ++ toString now
    complaintId := generateComplaintId now rnd
    issueType := issueType1
    description := description0
    department := dept
    latitude := parseFloatJS req.latitude
    longitude := parseFloatJS req.longitude
    address := orElseS req.address ""
    citizenName := orElseS req.citizenName "Anonymous"
    citizenPhone := orElseS req.citizenPhone ""
    citizenEmail := orElseS req.citizenEmail ""
    photo := (match req.photo with | some fn => "/uploads/" ++ fn | none => "")
    status := "pending"
    priority := (match aiAnalysis with | some a => orElseS a.priority "medium" | none => "medium")
    assignedTo := dept
    aiAnalysis := aiAnalysis.isSome
    resolutionNotes := none
    resolutionPhoto := none
    createdAt := now
    updatedAt := now }

/-- The HTTP outcome of the create route: status code and the public
projection `{complaintId, status, createdAt}` echoed on success. -/
structure CreateResponse where
  statusCode : Nat
  complaintId : String
  status : String
  createdAt : Nat
deriving DecidableEq, Repr

/-- The create route: builds the record, pushes it onto the store, answers 201.
The handler has no validation branch, so every request reaches this path. -/
def submit (apiKey : Option String) (upstream : Except String String)
    (parseJson : String → Option AIAnalysis) (req : SubmitReq) (now : Nat)
    (rnd : List (Fin 36)) (store : List Complaint) : CreateResponse × List Complaint :=
  let c := processSubmit apiKey upstream parseJson req now rnd
  ({ statusCode := 201, complaintId := c.complaintId, status := c.status,
     createdAt := c.createdAt }, store ++ [c])

/-! ### Listing (the GET route body) -/

/-- The calendar-day index of a millisecond timestamp, the fixed-time-zone
abstraction of `new Date(t).toDateString()`. -/
def dayIndex (t : Nat) : Nat := t / 86400000

/-- The sequential filters of the list route: by exact status and issue type
when the query strings are truthy, then by the calendar day of `createdAt`
when a `date` query is present (`dateQ` carries that date's day index). -/
def applyFilters (store : List Complaint) (status issueType : Option String)
    (dateQ : Option Nat) : List Complaint :=
  let r := store
  let r := if truthyS status then r.filter (fun c => c.status == status.getD "") else r
  let r := if truthyS issueType then r.filter (fun c => c.issueType == issueType.getD "") else r
  match dateQ with
  | some qd => r.filter (fun c => dayIndex c.createdAt == qd)
  | none => r

/-- The comparator `(a, b) => new Date(b.createdAt) - new Date(a.createdAt)`:
descending order of creation time. -/
def createdDesc (a b : Complaint) : Prop := b.createdAt ≤ a.createdAt

instance : DecidableRel createdDesc := fun a b => Nat.decLe b.createdAt a.createdAt

instance : IsTotal Complaint createdDesc :=
  ⟨fun a b => (Nat.le_total b.createdAt a.createdAt).elim Or.inl Or.inr⟩

instance : IsTrans Complaint createdDesc :=
  ⟨fun _ _ _ hab hbc => Nat.le_trans hbc hab⟩

/-- `results.sort(comparator)` — a stable sort by descending `createdAt`. -/
def sortByCreatedAtDesc (l : List Complaint) : List Complaint :=
  List.insertionSort createdDesc l

/-- The list route: filter, sort descending by `createdAt`, then
`slice(skip, skip + limit)` with the defaults `limit = 100`, `skip = 0`. -/
def listComplaints (store : List Complaint) (status issueType : Option String)
    (dateQ : Option Nat) (limitQ skipQ : Option Nat) : List Complaint :=
  let limit := limitQ.getD 100
  let skip := skipQ.getD 0
  let results := applyFilters store status issueType dateQ
  let sorted := sortByCreatedAtDesc results
  (sorted.drop skip).take limit

/-! ### Stats (the GET `/stats` route body) -/

/-- The property names the `byType` object literal `{}` inherits from
`Object.prototype`: looking any of them up on `{}` yields a truthy value (a
function, or the prototype object itself through the inherited `__proto__`
accessor) instead of `undefined`. -/
def protoKeys : List String :=
  ["constructor", "hasOwnProperty", "isPrototypeOf", "propertyIsEnumerable",
   "toLocaleString", "toString", "valueOf", "__defineGetter__", "__defineSetter__",
   "__lookupGetter__", "__lookupSetter__", "__proto__"]

/-- The value of an own `byType` entry: a numeric count, or the non-numeric
string produced when `+ 1` concatenates onto an inherited truthy value (its
exact text is engine-defined and never a count). -/
inductive ByTypeVal where
  | count : Nat → ByTypeVal
  | garbled : ByTypeVal
deriving DecidableEq, Repr

/-- Own-property lookup on the `byType` object. -/
def lookupOwn : List (String × ByTypeVal) → String → Option ByTypeVal
  | [], _ => none
  | (k', v) :: t, k => if k' = k then some v else lookupOwn t k

/-- Own-property assignment on the `byType` object. -/
def setOwn : List (String × ByTypeVal) → String → ByTypeVal → List (String × ByTypeVal)
  | [], k, v => [(k, v)]
  | (k', v') :: t, k, v => if k' = k then (k', v) :: t else (k', v') :: setOwn t k v

/-- One step of the `byType` accumulation,
`byType[c.issueType] = (byType[c.issueType] || 0) + 1`, with JS property
semantics on the `{}` literal: an own count is incremented; an own garbled
string stays a string (`string + 1` concatenates); an absent key inherited
from `Object.prototype` is truthy, so `|| 0` keeps it and `+ 1` produces a
garbled own entry — except `__proto__`, whose inherited setter silently
ignores the primitive assignment; any other absent key starts a count at 1. -/
def bump (m : List (String × ByTypeVal)) (k : String) : List (String × ByTypeVal) :=
  match lookupOwn m k with
  | some (ByTypeVal.count n) => setOwn m k (ByTypeVal.count (n + 1))
  | some ByTypeVal.garbled => setOwn m k ByTypeVal.garbled
  | none =>
    if k ∈ protoKeys then
      if k = "__proto__" then m
      else setOwn m k ByTypeVal.garbled
    else setOwn m k (ByTypeVal.count 1)

/-- The `byType` object after the `forEach` over the store. -/
def byTypeOf (cs : List Complaint) : List (String × ByTypeVal) :=
  cs.foldl (fun m c => bump m c.issueType) []

/-- The payload of the stats route. -/
structure StatsData where
  total : Nat
  pending : Nat
  inProgress : Nat
  resolved : Nat
  rejected : Nat
  recentCount : Nat
  byType : List (String × ByTypeVal)
deriving DecidableEq, Repr

/-- The stats route body: four status filters, total, and the `byType` fold. -/
def getStats (cs : List Complaint) : StatsData :=
  { total := cs.length
    pending := (cs.filter (fun c => c.status == "pending")).length
    inProgress := (cs.filter (fun c => c.status == "in-progress")).length
    resolved := (cs.filter (fun c => c.status == "resolved")).length
    rejected := (cs.filter (fun c => c.status == "rejected")).length
    recentCount := cs.length
    byType := byTypeOf cs }

/-! ### Updates (the PATCH route body) -/

/-- The sparse patch of a PATCH request: the four body fields and the optional
`resolutionPhoto` upload (`file` is its stored file name). -/
structure UpdatePatch where
  status : Option String
  priority : Option String
  assignedTo : Option String
  resolutionNotes : Option String
  file : Option String
deriving DecidableEq, Repr

/-- `if (x) complaints[index].f = x` for a string-valued field: a missing or
empty-string patch value leaves the current value in place. -/
def applyField (cur : String) (v : Option String) : String :=
  match v with
  | some s => if s = "" then cur else s
  | none => cur

/-- The same guarded assignment for a field that may still be absent. -/
def applyFieldOpt (cur : Option String) (v : Option String) : Option String :=
  match v with
  | some s => if s = "" then cur else some s
  | none => cur

/-- Lines 302–307 of the router applied to the found record: the guarded field
assignments followed by the unconditional `updatedAt` refresh. -/
def applyPatch (c : Complaint) (p : UpdatePatch) (now : Nat) : Complaint :=
  { c with
    status := applyField c.status p.status
    priority := applyField c.priority p.priority
    assignedTo := applyField c.assignedTo p.assignedTo
    resolutionNotes := applyFieldOpt c.resolutionNotes p.resolutionNotes
    resolutionPhoto := (match p.file with
      | some fn => some ("/uploads/" ++ fn)
      | none => c.resolutionPhoto)
    updatedAt := now }

/-- The PATCH route on the store: `findIndex` on `complaintId`, 404 (`none`)
when absent, otherwise the patched record replaces the first match and is
echoed back. -/
def updateComplaint : List Complaint → String → UpdatePatch → Nat →
    Option Complaint × List Complaint
  | [], _, _, _ => (none, [])
  | c :: cs, cid, p, now =>
    if c.complaintId = cid then (some (applyPatch c p now), applyPatch c p now :: cs)
    else
      let r := updateComplaint cs cid p now
      (r.1, c :: r.2)

/-! ### OTP issuance and verification (the auth router) -/

/-- A pending OTP challenge: `otpStore` maps a phone to `{ otp, expires }`. -/
structure OtpEntry where
  otp : String
  expires : Nat
deriving DecidableEq, Repr

/-- A verified-identity record from the in-memory `users` array. -/
structure UserRec where
  phone : String
  citizenId : String
  joinedAt : Nat
  isVerified : Bool
deriving DecidableEq, Repr

/-- The shared mutable auth state: the OTP map and the users array. -/
structure AuthState where
  otpStore : List (String × OtpEntry)
  users : List UserRec
deriving DecidableEq, Repr

/-- `otpStore.get(phone)` on the association-list model. -/
def storeGet : List (String × OtpEntry) → String → Option OtpEntry
  | [], _ => none
  | (k, v) :: t, p => if k = p then some v else storeGet t p

/-- `otpStore.delete(phone)`. -/
def storeDelete (m : List (String × OtpEntry)) (p : String) : List (String × OtpEntry) :=
  m.filter (fun e => !(e.1 == p))

/-- The outcomes of the verify-otp handler, in the order they are produced:
no stored challenge, code mismatch, expiry, success with the user and the
`isNew` flag. -/
inductive VerifyRes where
  | noPending : VerifyRes
  | invalidCode : VerifyRes
  | expired : VerifyRes
  | success : UserRec → Bool → VerifyRes
deriving DecidableEq, Repr

/-- The verify-otp handler: looks up the challenge, rejects a mismatch without
consuming it, consumes on expiry, and on a fresh match consumes the challenge
and finds or creates the user (`freshId` is the generated `CIT-NNNN` for a new
phone; `now` is `Date.now()`). -/
def verifyOtp (st : AuthState) (phone otp : String) (now : Nat) (freshId : String) :
    VerifyRes × AuthState :=
  match storeGet st.otpStore phone with
  | none => (VerifyRes.noPending, st)
  | some r =>
    if r.otp ≠ otp then (VerifyRes.invalidCode, st)
    else if r.expires < now then
      (VerifyRes.expired, { st with otpStore := storeDelete st.otpStore phone })
    else
      let st1 : AuthState := { st with otpStore := storeDelete st.otpStore phone }
      match st1.users.find? (fun u => u.phone == phone) with
      | some u => (VerifyRes.success u false, st1)
      | none =>
        let u : UserRec := { phone := phone, citizenId := freshId, joinedAt := now, isVerified := true }
        (VerifyRes.success u true, { st1 with users := st1.users ++ [u] })

/-! ### Spec-side definitions

These follow the specification's wording and are compared against the code
embeddings above. -/

/-- The curated keyword sets per category, in the spec's fixed priority order:
pothole-related, garbage-related, streetlight-related, water-related,
sanitation-related. -/
def specKeywordTable : List (String × List String) :=
  [("pothole", ["road", "pothole", "crack", "hole"]),
   ("garbage", ["garbage", "trash", "waste", "dustbin", "plastic"]),
   ("streetlight", ["light", "lamp", "dark", "pole"]),
   ("water-leakage", ["water", "leak", "pipe", "drain", "sewage"]),
   ("dirty-toilet", ["toilet", "bathroom", "urinal"])]

/-- The spec's Classifier Fallback Engine: case-insensitive substring matching
against the keyword sets in priority order, taking the first matching
category; `"other"` when none matches. -/
def specFallbackClassifier (description : String) : String :=
  match specKeywordTable.find?
      (fun e => e.2.any (fun kw => strIncludes (toLowerStr description) kw)) with
  | some e => e.1
  | none => "other"

/-- Splitting a character list at `'-'` (code 45), the `"-"`-separated parts of
an identifier. -/
def splitDash : List Char → List (List Char)
  | [] => [[]]
  | c :: cs =>
    let r := splitDash cs
    if c = Char.ofNat 45 then [] :: r
    else (c :: r.headD []) :: r.tail

/-- An uppercase base-36 character: a decimal digit or an uppercase letter. -/
def isUpperB36 (c : Char) : Bool :=
  (decide (48 ≤ c.toNat) && decide (c.toNat ≤ 57)) ||
  (decide (65 ≤ c.toNat) && decide (c.toNat ≤ 90))

/-- The claimed identifier format `PREFIX-TIMESTAMP36-RAND4`: prefix `CIV`, a
nonempty uppercase base-36 timestamp part, and a random part of exactly four
uppercase base-36 characters. -/
def specIdFormat (s : String) : Bool :=
  match splitDash s.data with
  | [p, ts, r] =>
    (p == "CIV".data) && decide (1 ≤ ts.length) && ts.all isUpperB36 &&
    (r.length == 4) && r.all isUpperB36
  | _ => false

/-- The numeric count carried by a `byType` entry; a garbled string carries
none. -/
def valCount : ByTypeVal → Nat
  | ByTypeVal.count n => n
  | ByTypeVal.garbled => 0

/-- Sum of the per-key counts of a `byType` object. -/
def sumCounts (m : List (String × ByTypeVal)) : Nat :=
  (m.map (fun e => valCount e.2)).sum

/-! ### Concrete fixtures -/

/-- A create request with `issueType` unset and a pothole description. -/
def potholeReq : SubmitReq :=
  { issueType := none, description := "pothole in the road",
    latitude := some "12.9", longitude := some "77.5", address := none,
    citizenName := none, citizenPhone := none, citizenEmail := none, photo := none }

/-- A create request that carries no geolocation at all. -/
def noGeoReq : SubmitReq :=
  { issueType := some "pothole", description := "x",
    latitude := none, longitude := none, address := none,
    citizenName := none, citizenPhone := none, citizenEmail := none, photo := none }

/-- A stored complaint used as a concrete fixture. -/
def exComplaint : Complaint :=
  { memId := "mem_1", complaintId := "CIV-A-BCDE", issueType := "pothole",
    description := "d", department := "Roads & Highway Dept",
    latitude := some 12, longitude := some 77, address := "",
    citizenName := "Anonymous", citizenPhone := "", citizenEmail := "",
    photo := "", status := "pending", priority := "medium",
    assignedTo := "Roads & Highway Dept", aiAnalysis := false,
    resolutionNotes := none, resolutionPhoto := none,
    createdAt := 100, updatedAt := 100 }

/-- A patch carrying only an out-of-enumeration status value. -/
def bananaPatch : UpdatePatch :=
  { status := some "banana", priority := none, assignedTo := none,
    resolutionNotes := none, file := none }

/-! ### Claim theorems -/

/-- C1.  A submission whose issue type is unset (missing or empty) or
`"other"` has its issue type resolved by the keyword fallback exactly as the
spec's Classifier Fallback Engine prescribes (first matching category in
priority order, `"other"` when no keyword matches, the description compared
case-insensitively), and in particular a submission with `issueType` unset and
description "pothole in the road" is stored with `issueType = "pothole"` and
`department = "Roads & Highway Dept"`. -/
theorem fallback_classifier_matches_spec (it : Option String) (d : String)
    (latT lngT : Bool) (hit : it = none ∨ it = some "" ∨ it = some "other")
    (hd : d ≠ "") :
    resolveIssueType it d latT lngT = specFallbackClassifier d ∧
    (processSubmit none (Except.error "") (fun _ => none) potholeReq 1000 []).issueType
      = "pothole" ∧
    (processSubmit none (Except.error "") (fun _ => none) potholeReq 1000 []).department
      = "Roads & Highway Dept" := by
  refine ⟨?_, by decide, by decide⟩
  have hit1 : resolveIssueType it d latT lngT = smartFallback "other" d := by
    rcases hit with h | h | h <;> subst h <;>
      cases latT <;> cases lngT <;>
        simp [resolveIssueType, truthyS, orElseS]
  rw [hit1]
  unfold smartFallback specFallbackClassifier specKeywordTable
  rw [if_pos ⟨rfl, hd⟩]
  simp only [List.find?, List.any_cons, List.any_nil, Bool.or_false, Bool.or_assoc]
  cases h1 : (strIncludes (toLowerStr d) "road" || (strIncludes (toLowerStr d) "pothole" ||
      (strIncludes (toLowerStr d) "crack" || strIncludes (toLowerStr d) "hole"))) <;>
    simp only [h1] <;> [skip; rfl] <;>
  cases h2 : (strIncludes (toLowerStr d) "garbage" || (strIncludes (toLowerStr d) "trash" ||
      (strIncludes (toLowerStr d) "waste" || (strIncludes (toLowerStr d) "dustbin" ||
      strIncludes (toLowerStr d) "plastic")))) <;>
    simp only [h2] <;> [skip; rfl] <;>
  cases h3 : (strIncludes (toLowerStr d) "light" || (strIncludes (toLowerStr d) "lamp" ||
      (strIncludes (toLowerStr d) "dark" || strIncludes (toLowerStr d) "pole"))) <;>
    simp only [h3] <;> [skip; rfl] <;>
  cases h4 : (strIncludes (toLowerStr d) "water" || (strIncludes (toLowerStr d) "leak" ||
      (strIncludes (toLowerStr d) "pipe" || (strIncludes (toLowerStr d) "drain" ||
      strIncludes (toLowerStr d) "sewage")))) <;>
    simp only [h4] <;> [skip; rfl] <;>
  cases h5 : (strIncludes (toLowerStr d) "toilet" || (strIncludes (toLowerStr d) "bathroom" ||
      strIncludes (toLowerStr d) "urinal")) <;>
    simp only [h5] <;> rfl

/-- Witness for C1: the classifier agreement evaluated on the spec's own
example description. -/
theorem fallback_classifier_matches_spec_witness :
    ((none : Option String) = none ∨ (none : Option String) = some "" ∨
      (none : Option String) = some "other") ∧
    "pothole in the road" ≠ "" ∧
    resolveIssueType none "pothole in the road" true true =
      specFallbackClassifier "pothole in the road" :=
  ⟨Or.inl rfl, by decide,
    (fallback_classifier_matches_spec none "pothole in the road" true true
      (Or.inl rfl) (by decide)).1⟩

/-- C2 (code bug).  The create route performs no geolocation validation: a
request with latitude and longitude both missing is still answered 201 and a
complaint record with `NaN` coordinates (modelled `none`) is appended to the
store, contradicting the claimed 400 rejection. -/
theorem missing_geolocation_still_creates :
    (submit none (Except.error "") (fun _ => none) noGeoReq 1000 [] []).1.statusCode = 201 ∧
    ((submit none (Except.error "") (fun _ => none) noGeoReq 1000 [] []).2.map
      Complaint.latitude) = [none] ∧
    ((submit none (Except.error "") (fun _ => none) noGeoReq 1000 [] []).2.map
      Complaint.longitude) = [none] := by
  refine ⟨rfl, by decide, by decide⟩

/-- C3 (code bug).  The update route applies any truthy status string without
validating it against the schema's enumeration: patching the fixture complaint
with status `"banana"` succeeds and stores `"banana"`, instead of the claimed
`InvalidStatusError` rejection that leaves the record unchanged. -/
theorem invalid_status_is_applied :
    (updateComplaint [exComplaint] "CIV-A-BCDE" bananaPatch 200).1 =
      some { exComplaint with status := "banana", updatedAt := 200 } ∧
    ((updateComplaint [exComplaint] "CIV-A-BCDE" bananaPatch 200).2.map
      Complaint.status) = ["banana"] := by
  exact ⟨by decide, by decide⟩

/-- Deleting a phone's challenge removes it from the OTP map. -/
theorem storeGet_storeDelete (m : List (String × OtpEntry)) (p : String) :
    storeGet (storeDelete m p) p = none := by
  induction m with
  | nil => rfl
  | cons a t ih =>
    by_cases h : a.1 = p
    · simpa [storeDelete, List.filter_cons, h] using ih
    · simpa [storeDelete, List.filter_cons, h, storeGet] using ih

/-- Whatever the verdict, a fresh successful verification leaves the phone's
challenge deleted. -/
theorem verifyOtp_success_otpStore (st : AuthState) (p : String) (e : OtpEntry)
    (t : Nat) (f : String) (hget : storeGet st.otpStore p = some e)
    (ht : ¬ e.expires < t) :
    (verifyOtp st p e.otp t f).2.otpStore = storeDelete st.otpStore p := by
  cases hf : st.users.find? (fun u => u.phone == p) <;>
    simp [verifyOtp, hget, ht, hf]

/-- C4.  The OTP challenge is consumed exactly on a successful or (matching)
expired verification and never on a mismatch: a fresh correct code succeeds
and a repeat verification then fails with no pending challenge; a wrong code
is rejected with the state unchanged, so the correct code still succeeds
within the expiry window; a matching code past expiry is rejected and the
challenge is deleted. -/
theorem otp_consumed_exactly_once (st : AuthState) (p w : String) (e : OtpEntry)
    (t t' t₂ t₃ : Nat) (f f' f₂ f₃ : String)
    (hget : storeGet st.otpStore p = some e)
    (hw : w ≠ e.otp)
    (ht : ¬ e.expires < t) (ht' : ¬ e.expires < t') (ht₃ : e.expires < t₃) :
    ((∃ u b, (verifyOtp st p e.otp t f).1 = VerifyRes.success u b) ∧
      (verifyOtp (verifyOtp st p e.otp t f).2 p e.otp t₂ f₂).1 = VerifyRes.noPending ∧
      (verifyOtp (verifyOtp st p e.otp t f).2 p e.otp t₂ f₂).2 =
        (verifyOtp st p e.otp t f).2) ∧
    ((verifyOtp st p w t f).1 = VerifyRes.invalidCode ∧
      (verifyOtp st p w t f).2 = st ∧
      (∃ u b, (verifyOtp (verifyOtp st p w t f).2 p e.otp t' f').1 =
        VerifyRes.success u b)) ∧
    ((verifyOtp st p e.otp t₃ f₃).1 = VerifyRes.expired ∧
      storeGet (verifyOtp st p e.otp t₃ f₃).2.otpStore p = none) := by
  have hew : e.otp ≠ w := fun hc => hw hc.symm
  have hmismatch : verifyOtp st p w t f = (VerifyRes.invalidCode, st) := by
    simp [verifyOtp, hget, hew]
  have hconsumed : (verifyOtp st p e.otp t f).2.otpStore = storeDelete st.otpStore p :=
    verifyOtp_success_otpStore st p e t f hget ht
  have hsucc : ∀ t₀ f₀, ¬ e.expires < t₀ →
      ∃ u b, (verifyOtp st p e.otp t₀ f₀).1 = VerifyRes.success u b := by
    intro t₀ f₀ ht₀
    cases hf : st.users.find? (fun u => u.phone == p) with
    | some u => exact ⟨u, false, by simp [verifyOtp, hget, ht₀, hf]⟩
    | none =>
      exact ⟨{ phone := p, citizenId := f₀, joinedAt := t₀, isVerified := true },
        true, by simp [verifyOtp, hget, ht₀, hf]⟩
  have hnopend : ∀ stX : AuthState, storeGet stX.otpStore p = none →
      verifyOtp stX p e.otp t₂ f₂ = (VerifyRes.noPending, stX) := by
    intro stX hX
    unfold verifyOtp
    rw [hX]
  have hdel : storeGet (verifyOtp st p e.otp t f).2.otpStore p = none := by
    rw [hconsumed]; exact storeGet_storeDelete _ _
  refine ⟨⟨hsucc t f ht, ?_, ?_⟩, ?_, ?_⟩
  · rw [hnopend _ hdel]
  · rw [hnopend _ hdel]
  · refine ⟨by rw [hmismatch], by rw [hmismatch], ?_⟩
    rw [hmismatch]
    exact hsucc t' f' ht'
  · constructor
    · simp [verifyOtp, hget, ht₃]
    · simp [verifyOtp, hget, ht₃, storeGet_storeDelete]

/-- A concrete auth state with one pending challenge for phone 9876543210. -/
def exAuthState : AuthState :=
  { otpStore := [("9876543210", { otp := "1234", expires := 300000 })],
    users := [] }

/-- Witness for C4 at the concrete auth state. -/
theorem otp_consumed_exactly_once_witness :
    storeGet exAuthState.otpStore "9876543210" = some { otp := "1234", expires := 300000 } ∧
    (∃ u b, (verifyOtp exAuthState "9876543210" "1234" 1000 "CIT-1111").1 =
      VerifyRes.success u b) ∧
    (verifyOtp (verifyOtp exAuthState "9876543210" "1234" 1000 "CIT-1111").2
      "9876543210" "1234" 2000 "CIT-2222").1 = VerifyRes.noPending ∧
    (verifyOtp exAuthState "9876543210" "0000" 1000 "CIT-1111").2 = exAuthState := by
  have h := otp_consumed_exactly_once exAuthState "9876543210" "0000"
    { otp := "1234", expires := 300000 } 1000 1500 2000 400000
    "CIT-1111" "CIT-3333" "CIT-2222" "CIT-4444" (by decide) (by decide)
    (by decide) (by decide) (by decide)
  exact ⟨by decide, h.1.1, h.1.2.1, h.2.1.2.1⟩

/-- The empty patch. -/
def emptyPatch : UpdatePatch :=
  { status := none, priority := none, assignedTo := none,
    resolutionNotes := none, file := none }

/-- C5.  An update modifies at most the five patchable fields: every other
field of the record is unchanged, a field absent from the patch is unchanged,
`updatedAt` is set to the update time on every update, and the empty patch
changes nothing but `updatedAt`. -/
theorem update_frame (c : Complaint) (p : UpdatePatch) (t : Nat) :
    (applyPatch c p t).memId = c.memId ∧
    (applyPatch c p t).complaintId = c.complaintId ∧
    (applyPatch c p t).issueType = c.issueType ∧
    (applyPatch c p t).description = c.description ∧
    (applyPatch c p t).department = c.department ∧
    (applyPatch c p t).latitude = c.latitude ∧
    (applyPatch c p t).longitude = c.longitude ∧
    (applyPatch c p t).address = c.address ∧
    (applyPatch c p t).citizenName = c.citizenName ∧
    (applyPatch c p t).citizenPhone = c.citizenPhone ∧
    (applyPatch c p t).citizenEmail = c.citizenEmail ∧
    (applyPatch c p t).photo = c.photo ∧
    (applyPatch c p t).aiAnalysis = c.aiAnalysis ∧
    (applyPatch c p t).createdAt = c.createdAt ∧
    (applyPatch c p t).updatedAt = t ∧
    (p.status = none → (applyPatch c p t).status = c.status) ∧
    (p.priority = none → (applyPatch c p t).priority = c.priority) ∧
    (p.assignedTo = none → (applyPatch c p t).assignedTo = c.assignedTo) ∧
    (p.resolutionNotes = none → (applyPatch c p t).resolutionNotes = c.resolutionNotes) ∧
    (p.file = none → (applyPatch c p t).resolutionPhoto = c.resolutionPhoto) ∧
    applyPatch c emptyPatch t = { c with updatedAt := t } := by
  refine ⟨rfl, rfl, rfl, rfl, rfl, rfl, rfl, rfl, rfl, rfl, rfl, rfl, rfl, rfl, rfl,
    ?_, ?_, ?_, ?_, ?_, ?_⟩ <;>
    first
      | (intro h; simp [applyPatch, applyField, applyFieldOpt, h])
      | simp [emptyPatch, applyPatch, applyField, applyFieldOpt]

/-- Witness for C5: the empty patch on the fixture complaint only advances
`updatedAt`. -/
theorem update_frame_witness :
    emptyPatch.status = none ∧
    (applyPatch exComplaint emptyPatch 500).status = exComplaint.status ∧
    applyPatch exComplaint emptyPatch 500 = { exComplaint with updatedAt := 500 } :=
  ⟨rfl, (update_frame exComplaint emptyPatch 500).2.2.2.2.2.2.2.2.2.2.2.2.2.2.2.1 rfl,
    (update_frame exComplaint emptyPatch 500).2.2.2.2.2.2.2.2.2.2.2.2.2.2.2.2.2.2.2.2⟩

/-- C9.  A patch field carried as the empty string is treated as absent — the
stored value is kept — and consequently no update ever sets `status`,
`priority`, `assignedTo` or `resolutionNotes` to the empty string unless it
was already empty. -/
theorem falsy_patch_field_ignored (c : Complaint) (p : UpdatePatch) (t : Nat) :
    (p.status = some "" → (applyPatch c p t).status = c.status) ∧
    (p.priority = some "" → (applyPatch c p t).priority = c.priority) ∧
    (p.assignedTo = some "" → (applyPatch c p t).assignedTo = c.assignedTo) ∧
    (p.resolutionNotes = some "" →
      (applyPatch c p t).resolutionNotes = c.resolutionNotes) ∧
    ((applyPatch c p t).status ≠ "" ∨ c.status = "") ∧
    ((applyPatch c p t).priority ≠ "" ∨ c.priority = "") ∧
    ((applyPatch c p t).assignedTo ≠ "" ∨ c.assignedTo = "") ∧
    ((applyPatch c p t).resolutionNotes ≠ some "" ∨ c.resolutionNotes = some "") := by
  have hfield : ∀ (cur : String) (v : Option String),
      applyField cur v = "" → cur = "" := by
    intro cur v
    cases v with
    | none => exact fun h => h
    | some s =>
      by_cases hs : s = "" <;> simp [applyField, hs]
  have hfieldOpt : ∀ (cur v : Option String),
      applyFieldOpt cur v = some "" → cur = some "" := by
    intro cur v
    cases v with
    | none => exact fun h => h
    | some s =>
      by_cases hs : s = "" <;> simp [applyFieldOpt, hs]
  refine ⟨?_, ?_, ?_, ?_, ?_, ?_, ?_, ?_⟩
  · intro h; simp [applyPatch, h, applyField]
  · intro h; simp [applyPatch, h, applyField]
  · intro h; simp [applyPatch, h, applyField]
  · intro h; simp [applyPatch, h, applyFieldOpt]
  · by_cases h : (applyPatch c p t).status = ""
    · exact Or.inr (hfield c.status p.status h)
    · exact Or.inl h
  · by_cases h : (applyPatch c p t).priority = ""
    · exact Or.inr (hfield c.priority p.priority h)
    · exact Or.inl h
  · by_cases h : (applyPatch c p t).assignedTo = ""
    · exact Or.inr (hfield c.assignedTo p.assignedTo h)
    · exact Or.inl h
  · by_cases h : (applyPatch c p t).resolutionNotes = some ""
    · exact Or.inr (hfieldOpt c.resolutionNotes p.resolutionNotes h)
    · exact Or.inl h

/-- A patch whose body fields are all present but empty strings. -/
def allEmptyPatch : UpdatePatch :=
  { status := some "", priority := some "", assignedTo := some "",
    resolutionNotes := some "", file := none }

/-- Witness for C9: an all-empty-string patch leaves the fixture's fields as
they were. -/
theorem falsy_patch_field_ignored_witness :
    allEmptyPatch.status = some "" ∧
    (applyPatch exComplaint allEmptyPatch 500).status = exComplaint.status ∧
    (applyPatch exComplaint allEmptyPatch 500).priority = exComplaint.priority :=
  ⟨rfl, (falsy_patch_field_ignored exComplaint allEmptyPatch 500).1 rfl,
    (falsy_patch_field_ignored exComplaint allEmptyPatch 500).2.1 rfl⟩

/-- C6.  Vision classification is never fatal: with no configured credential
the adapter answers `Unavailable` (`none`) independently of the network — no
call is made; an upstream error or a parse failure also yields `Unavailable`;
and a submission with a photo but no credential is classified exactly like the
same submission without the photo (same issue type, description, priority and
department). -/
theorem vision_failure_never_fatal (upstream : Except String String)
    (parseJson : String → Option AIAnalysis) (k er txt : String)
    (req : SubmitReq) (now : Nat) (rnd : List (Fin 36)) (fn : String)
    (hph : req.photo = some fn)
    (hparse : parseJson (stripFences txt) = none) :
    analyzeImageWithGemini none upstream parseJson = none ∧
    analyzeImageWithGemini (some k) (Except.error er) parseJson = none ∧
    analyzeImageWithGemini (some k) (Except.ok txt) parseJson = none ∧
    (processSubmit none upstream parseJson req now rnd).issueType =
      (processSubmit none upstream parseJson { req with photo := none } now rnd).issueType ∧
    (processSubmit none upstream parseJson req now rnd).description =
      (processSubmit none upstream parseJson { req with photo := none } now rnd).description ∧
    (processSubmit none upstream parseJson req now rnd).priority =
      (processSubmit none upstream parseJson { req with photo := none } now rnd).priority ∧
    (processSubmit none upstream parseJson req now rnd).department =
      (processSubmit none upstream parseJson { req with photo := none } now rnd).department := by
  refine ⟨rfl, rfl, by simp [analyzeImageWithGemini, hparse], ?_, ?_, ?_, ?_⟩ <;>
    simp [processSubmit, hph, analyzeImageWithGemini]

/-- A create request carrying a photo. -/
def photoReq : SubmitReq :=
  { potholeReq with photo := some "p.jpg" }

/-- The i-th fixture complaint, created at time `i * 100`. -/
def exC (i : Nat) : Complaint :=
  { exComplaint with
      memId := "mem_" ++ toString i
      complaintId := "CIV-" ++ toString i
      createdAt := i * 100
      updatedAt := i * 100 }

/-- Five stored fixture complaints, in scrambled creation order. -/
def exStore5 : List Complaint := [exC 1, exC 3, exC 5, exC 2, exC 4]

/-- Every record the list filters keep comes from the store and satisfies the
given filters. -/
theorem mem_applyFilters (store : List Complaint) (status issueType : Option String)
    (dateQ : Option Nat) (c : Complaint)
    (hc : c ∈ applyFilters store status issueType dateQ) :
    c ∈ store ∧ (truthyS status = true → c.status = status.getD "") ∧
    (truthyS issueType = true → c.issueType = issueType.getD "") ∧
    (∀ qd, dateQ = some qd → dayIndex c.createdAt = qd) := by
  unfold applyFilters at hc
  by_cases hst : truthyS status <;> by_cases hty : truthyS issueType <;>
    cases dateQ <;>
    simp only [hst, hty, if_true, if_false, Bool.false_eq_true, ite_true, ite_false,
      List.mem_filter, beq_iff_eq] at hc <;>
    refine ⟨?_, ?_, ?_, ?_⟩ <;>
    first
      | (intro h; simp [h] at hst hty ⊢) <;> tauto
      | (intro qd hqd; cases hqd; tauto)
      | tauto

/-- C7.  The list endpoint, for every call: the filtered results are sorted by
`createdAt` descending, the returned page is the `slice(skip, skip + limit)`
window of that sorted sequence — itself sorted, of length
`min limit (filtered - skip)`, drawn from the filtered store with every filter
respected, preceded only by records at least as recent and followed only by
records no more recent — omitted `limit`/`skip` default to 100 and 0, at
`skip = 0` nothing left out is more recent than anything returned, and on the
five-complaint fixture `limit = 2` returns exactly the two most recently
created records at `skip = 0` and the next two at `skip = 1`. -/
theorem list_sorted_filtered_paginated (store : List Complaint)
    (status issueType : Option String) (dateQ : Option Nat) (limitQ skipQ : Option Nat)
    (r fil s : List Complaint)
    (hfil : fil = applyFilters store status issueType dateQ)
    (hs : s = sortByCreatedAtDesc fil)
    (hr : r = listComplaints store status issueType dateQ limitQ skipQ) :
    List.Pairwise createdDesc s ∧
    List.Perm s fil ∧
    r = (s.drop (skipQ.getD 0)).take (limitQ.getD 100) ∧
    List.Pairwise createdDesc r ∧
    r.length = min (limitQ.getD 100) (fil.length - skipQ.getD 0) ∧
    (∀ c ∈ r, c ∈ fil) ∧
    (∀ c ∈ fil, c ∈ store ∧ (truthyS status = true → c.status = status.getD "") ∧
      (truthyS issueType = true → c.issueType = issueType.getD "") ∧
      (∀ qd, dateQ = some qd → dayIndex c.createdAt = qd)) ∧
    s = s.take (skipQ.getD 0) ++ (r ++ s.drop (skipQ.getD 0 + limitQ.getD 100)) ∧
    (∀ a ∈ s.take (skipQ.getD 0), ∀ b ∈ r, b.createdAt ≤ a.createdAt) ∧
    (∀ a ∈ r, ∀ b ∈ s.drop (skipQ.getD 0 + limitQ.getD 100), b.createdAt ≤ a.createdAt) ∧
    (skipQ.getD 0 = 0 → ∀ c ∈ fil, c ∉ r → ∀ c' ∈ r, c.createdAt ≤ c'.createdAt) ∧
    listComplaints store status issueType dateQ none none =
      listComplaints store status issueType dateQ (some 100) (some 0) ∧
    listComplaints exStore5 none none none (some 2) (some 0) = [exC 5, exC 4] ∧
    listComplaints exStore5 none none none (some 2) (some 1) = [exC 4, exC 3] := by
  subst hfil hs hr
  set fil := applyFilters store status issueType dateQ with hfil
  set s := sortByCreatedAtDesc fil with hs
  set limit := limitQ.getD 100 with hlim
  set skip := skipQ.getD 0 with hskip
  have hlist : listComplaints store status issueType dateQ limitQ skipQ =
      (s.drop skip).take limit := by
    simp [listComplaints, hs, hfil, hlim, hskip]
  rw [hlist]
  have hperm : List.Perm s fil := List.perm_insertionSort createdDesc fil
  have hsorted : List.Pairwise createdDesc s := List.sorted_insertionSort createdDesc fil
  have hpdrop : List.Pairwise createdDesc (s.drop skip) :=
    List.Pairwise.sublist (List.drop_sublist skip s) hsorted
  have hdd : (s.drop skip).drop limit = s.drop (skip + limit) := List.drop_drop limit skip s
  have hwin : s = s.take skip ++ ((s.drop skip).take limit ++ s.drop (skip + limit)) := by
    rw [← hdd, List.take_append_drop, List.take_append_drop]
  have hpre : ∀ a ∈ s.take skip, ∀ b ∈ (s.drop skip).take limit,
      b.createdAt ≤ a.createdAt := by
    have hsplit : List.Pairwise createdDesc (s.take skip ++ s.drop skip) := by
      rw [List.take_append_drop]
      exact hsorted
    rw [List.pairwise_append] at hsplit
    intro a ha b hb
    exact hsplit.2.2 a ha b (List.mem_of_mem_take hb)
  have hpost : ∀ a ∈ (s.drop skip).take limit, ∀ b ∈ s.drop (skip + limit),
      b.createdAt ≤ a.createdAt := by
    have hsplit : List.Pairwise createdDesc
        ((s.drop skip).take limit ++ (s.drop skip).drop limit) := by
      rw [List.take_append_drop]
      exact hpdrop
    rw [List.pairwise_append] at hsplit
    intro a ha b hb
    exact hsplit.2.2 a ha b (hdd ▸ hb)
  refine ⟨hsorted, hperm, rfl, ?_, ?_, ?_, ?_, hwin, hpre, hpost, ?_, rfl,
    by decide, by decide⟩
  · exact List.Pairwise.sublist (List.take_sublist limit (s.drop skip)) hpdrop
  · rw [List.length_take, List.length_drop, hperm.length_eq]
  · intro c hc
    exact hperm.mem_iff.mp (List.mem_of_mem_drop (List.mem_of_mem_take hc))
  · intro c hc
    exact mem_applyFilters store status issueType dateQ c hc
  · intro h0 c hcfil hcnr c' hc'r
    have hmem_s : c ∈ s := hperm.mem_iff.mpr hcfil
    rw [h0] at hwin hpost
    rw [List.take_zero, List.nil_append] at hwin
    rcases List.mem_append.mp (hwin ▸ hmem_s) with h | h
    · rw [h0] at hcnr
      exact absurd h hcnr
    · rw [h0] at hc'r
      exact hpost c' hc'r c h

/-- Witness for C7: the fixture instances of the list theorem at a nonzero
skip and at skip zero. -/
theorem list_sorted_filtered_paginated_witness :
    List.Pairwise createdDesc (listComplaints exStore5 none none none (some 2) (some 1)) ∧
    listComplaints exStore5 none none none (some 2) (some 1) = [exC 4, exC 3] ∧
    listComplaints exStore5 none none none (some 2) (some 0) = [exC 5, exC 4] :=
  ⟨(list_sorted_filtered_paginated exStore5 none none none (some 2) (some 1)
      _ _ _ rfl rfl rfl).2.2.2.1,
   (list_sorted_filtered_paginated exStore5 none none none (some 2) (some 1)
      _ _ _ rfl rfl rfl).2.2.2.2.2.2.2.2.2.2.2.2.2,
   (list_sorted_filtered_paginated exStore5 none none none (some 2) (some 1)
      _ _ _ rfl rfl rfl).2.2.2.2.2.2.2.2.2.2.2.2.1⟩

/-- Every character the base-36 digit accumulator emits is a digit image, so
any property of the digit images transfers to the output. -/
theorem natToB36Go_all (P : Char → Prop) (hP : ∀ d : Fin 36, P (digitChar36 d)) :
    ∀ (fuel n : Nat) (acc : List Char), (∀ ch ∈ acc, P ch) →
      ∀ ch ∈ natToB36Go fuel n acc, P ch := by
  intro fuel
  induction fuel with
  | zero => intro n acc hacc ch hch; exact hacc ch hch
  | succ f ih =>
    intro n acc hacc ch hch
    by_cases hn : n = 0
    · rw [natToB36Go, if_pos hn] at hch
      exact hacc ch hch
    · rw [natToB36Go, if_neg hn] at hch
      refine ih (n / 36) _ ?_ ch hch
      intro x hx
      rcases List.mem_cons.mp hx with h | h
      · exact h ▸ hP _
      · exact hacc x h

/-- Digit-image properties hold of every character of `natToB36 n`. -/
theorem natToB36_all (P : Char → Prop) (hP : ∀ d : Fin 36, P (digitChar36 d)) (n : Nat) :
    ∀ ch ∈ natToB36 n, P ch := by
  intro ch hch
  unfold natToB36 at hch
  by_cases hn : n = 0
  · rw [if_pos hn] at hch
    rcases List.mem_singleton.mp hch with h
    have h0 : Char.ofNat 48 = digitChar36 ⟨0, by decide⟩ := rfl
    rw [h, h0]
    exact hP _
  · rw [if_neg hn] at hch
    exact natToB36Go_all P hP (n + 1) n [] (by intro x hx; cases hx) ch hch

/-- The accumulator never shrinks. -/
theorem natToB36Go_length : ∀ (fuel n : Nat) (acc : List Char),
    acc.length ≤ (natToB36Go fuel n acc).length := by
  intro fuel
  induction fuel with
  | zero => intro n acc; exact Nat.le_refl _
  | succ f ih =>
    intro n acc
    by_cases hn : n = 0
    · rw [natToB36Go, if_pos hn]
    · rw [natToB36Go, if_neg hn]
      refine Nat.le_trans ?_ (ih (n / 36) _)
      simp

/-- `toString(36)` of a natural number is nonempty. -/
theorem natToB36_length (n : Nat) : 1 ≤ (natToB36 n).length := by
  unfold natToB36
  by_cases hn : n = 0
  · rw [if_pos hn]; exact Nat.le_refl _
  · rw [if_neg hn]
    rcases n with _ | m
    · exact absurd rfl hn
    · rw [natToB36Go, if_neg hn]
      exact Nat.le_trans (by simp) (natToB36Go_length _ _ _)

/-- A dash-free character list is a single `splitDash` part. -/
theorem splitDash_of_no_dash : ∀ (xs : List Char),
    (∀ ch ∈ xs, ch ≠ Char.ofNat 45) → splitDash xs = [xs] := by
  intro xs
  induction xs with
  | nil => intro _; rfl
  | cons c cs ih =>
    intro h
    have hc : c ≠ Char.ofNat 45 := h c (List.mem_cons_self c cs)
    have hcs := ih (fun ch hch => h ch (List.mem_cons_of_mem c hch))
    simp [splitDash, hcs, hc]

/-- `splitDash` splits off a dash-free chunk at its separating dash. -/
theorem splitDash_append (ys : List Char) : ∀ (xs : List Char),
    (∀ ch ∈ xs, ch ≠ Char.ofNat 45) →
    splitDash (xs ++ Char.ofNat 45 :: ys) = xs :: splitDash ys := by
  intro xs
  induction xs with
  | nil => intro _; simp [splitDash]
  | cons c cs ih =>
    intro h
    have hc : c ≠ Char.ofNat 45 := h c (List.mem_cons_self c cs)
    have hcs := ih (fun ch hch => h ch (List.mem_cons_of_mem c hch))
    simp [splitDash, hcs, hc]

/-- Uppercased base-36 digits are uppercase base-36 characters and not dashes. -/
theorem digitChar36_upper (d : Fin 36) :
    isUpperB36 (Char.toUpper (digitChar36 d)) = true ∧
    Char.toUpper (digitChar36 d) ≠ Char.ofNat 45 := by
  revert d
  decide

/-- C8 counterexample.  When the `Math.random()` value prints with no
fractional base-36 digits (e.g. the attainable value 0), the generated id has
an empty random part, so it does not have the claimed `PREFIX-TIMESTAMP36-RAND4`
format with a suffix of exactly four characters. -/
theorem id_rand4_counterexample :
    specIdFormat (generateComplaintId 1000 []) = false := by decide

/-- C8 (amended).  Every generated id is `CIV`, a dash, the uppercased base-36
timestamp, a dash, and an uppercase base-36 random part of `min 4 k` characters
where `k` is the number of available random digits — in particular exactly four
whenever at least four digits are available, in which case the id matches the
claimed format. -/
theorem id_format_amended (now : Nat) (ds ds' : List (Fin 36)) (h4 : 4 ≤ ds.length) :
    (generateComplaintId now ds).data =
      "CIV".data ++ Char.ofNat 45 :: (toUpperChars (natToB36 now) ++
        Char.ofNat 45 :: toUpperChars ((ds.take 4).map digitChar36)) ∧
    (toUpperChars ((ds'.take 4).map digitChar36)).length = min 4 ds'.length ∧
    specIdFormat (generateComplaintId now ds) = true := by
  have hdata : (generateComplaintId now ds).data =
      "CIV".data ++ Char.ofNat 45 :: (toUpperChars (natToB36 now) ++
        Char.ofNat 45 :: toUpperChars ((ds.take 4).map digitChar36)) := by
    simp [generateComplaintId, String.data_append]
  have hts : ∀ ch ∈ toUpperChars (natToB36 now),
      isUpperB36 ch = true ∧ ch ≠ Char.ofNat 45 := by
    intro ch hch
    rcases List.mem_map.mp hch with ⟨c, hc, hrfl⟩
    have := natToB36_all
      (fun c => isUpperB36 (Char.toUpper c) = true ∧ Char.toUpper c ≠ Char.ofNat 45)
      (fun d => digitChar36_upper d) now c hc
    exact hrfl ▸ this
  have hrand : ∀ ch ∈ toUpperChars ((ds.take 4).map digitChar36),
      isUpperB36 ch = true ∧ ch ≠ Char.ofNat 45 := by
    intro ch hch
    rcases List.mem_map.mp hch with ⟨c, hc, hrfl⟩
    rcases List.mem_map.mp hc with ⟨d, _, hdrfl⟩
    exact hrfl ▸ hdrfl ▸ digitChar36_upper d
  have hlen : ∀ es : List (Fin 36),
      (toUpperChars ((es.take 4).map digitChar36)).length = min 4 es.length := by
    intro es
    simp [toUpperChars, List.length_take]
  refine ⟨hdata, hlen ds', ?_⟩
  unfold specIdFormat
  rw [hdata]
  rw [splitDash_append _ "CIV".data (by decide)]
  rw [splitDash_append _ (toUpperChars (natToB36 now)) (fun ch hch => (hts ch hch).2)]
  rw [splitDash_of_no_dash _ (fun ch hch => (hrand ch hch).2)]
  have h1 : (toUpperChars (natToB36 now)).all isUpperB36 = true :=
    List.all_eq_true.mpr (fun ch hch => (hts ch hch).1)
  have h2 : (toUpperChars ((ds.take 4).map digitChar36)).all isUpperB36 = true :=
    List.all_eq_true.mpr (fun ch hch => (hrand ch hch).1)
  have h3 : 1 ≤ (toUpperChars (natToB36 now)).length := by
    simpa [toUpperChars] using natToB36_length now
  have h4' : (toUpperChars ((ds.take 4).map digitChar36)).length = 4 := by
    rw [hlen ds]
    omega
  rw [List.map_take] at h2 h4'
  simp [h1, h2, h3, h4']

/-- Witness for C8: a concrete id with four random digits available matches
the format. -/
theorem id_format_amended_witness :
    4 ≤ ([10, 0, 35, 5] : List (Fin 36)).length ∧
    specIdFormat (generateComplaintId 1700000000000 [10, 0, 35, 5]) = true :=
  ⟨by decide,
    (id_format_amended 1700000000000 [10, 0, 35, 5] [] (by decide)).2.2⟩

/-- A successful own-property lookup exhibits its entry. -/
theorem lookupOwn_mem (m : List (String × ByTypeVal)) (k : String) (v : ByTypeVal)
    (h : lookupOwn m k = some v) : (k, v) ∈ m := by
  induction m with
  | nil => cases h
  | cons a t ih =>
    obtain ⟨k', v'⟩ := a
    by_cases hk : k' = k
    · subst hk
      simp [lookupOwn] at h
      subst h
      exact List.mem_cons_self _ _
    · simp only [lookupOwn, if_neg hk] at h
      exact List.mem_cons_of_mem _ (ih h)

/-- Every entry after an own-property assignment was there before or is the
assigned one. -/
theorem mem_setOwn (m : List (String × ByTypeVal)) (k : String) (v : ByTypeVal)
    (e : String × ByTypeVal) (he : e ∈ setOwn m k v) : e ∈ m ∨ e = (k, v) := by
  induction m with
  | nil =>
    simp only [setOwn, List.mem_singleton] at he
    exact Or.inr he
  | cons a t ih =>
    obtain ⟨k', v'⟩ := a
    by_cases hk : k' = k
    · simp only [setOwn, if_pos hk] at he
      rcases List.mem_cons.mp he with h | h
      · exact Or.inr (by rw [h, hk])
      · exact Or.inl (List.mem_cons_of_mem _ h)
    · simp only [setOwn, if_neg hk] at he
      rcases List.mem_cons.mp he with h | h
      · exact Or.inl (h ▸ List.mem_cons_self _ _)
      · rcases ih h with h2 | h2
        · exact Or.inl (List.mem_cons_of_mem _ h2)
        · exact Or.inr h2

/-- Assigning an absent key appends its entry. -/
theorem setOwn_of_lookup_none (m : List (String × ByTypeVal)) (k : String) (v : ByTypeVal)
    (h : lookupOwn m k = none) : setOwn m k v = m ++ [(k, v)] := by
  induction m with
  | nil => rfl
  | cons a t ih =>
    obtain ⟨k', v'⟩ := a
    by_cases hk : k' = k
    · simp [lookupOwn, hk] at h
    · simp only [lookupOwn, if_neg hk] at h
      simp [setOwn, hk, ih h]

/-- `sumCounts` of a cons. -/
theorem sumCounts_cons (e : String × ByTypeVal) (t : List (String × ByTypeVal)) :
    sumCounts (e :: t) = valCount e.2 + sumCounts t := by
  simp [sumCounts]

/-- `sumCounts` of an appended entry. -/
theorem sumCounts_append (m : List (String × ByTypeVal)) (k : String) (v : ByTypeVal) :
    sumCounts (m ++ [(k, v)]) = sumCounts m + valCount v := by
  simp [sumCounts]

/-- Incrementing an existing count raises the total count by one. -/
theorem sumCounts_setOwn_count (m : List (String × ByTypeVal)) (k : String) (n : Nat)
    (h : lookupOwn m k = some (ByTypeVal.count n)) :
    sumCounts (setOwn m k (ByTypeVal.count (n + 1))) = sumCounts m + 1 := by
  induction m with
  | nil => cases h
  | cons a t ih =>
    obtain ⟨k', v'⟩ := a
    by_cases hk : k' = k
    · simp only [lookupOwn, if_pos hk, Option.some.injEq] at h
      simp only [setOwn, if_pos hk]
      rw [sumCounts_cons, sumCounts_cons, h]
      simp [valCount]
      omega
    · simp only [lookupOwn, if_neg hk] at h
      simp only [setOwn, if_neg hk]
      rw [sumCounts_cons, sumCounts_cons, ih h]
      omega

/-- On a key that is not an inherited property name, `bump` of a garble-free
map raises the total count by exactly one. -/
theorem bump_sumCounts (m : List (String × ByTypeVal)) (k : String)
    (hk : k ∉ protoKeys) (hng : ∀ e ∈ m, e.2 ≠ ByTypeVal.garbled) :
    sumCounts (bump m k) = sumCounts m + 1 := by
  cases hl : lookupOwn m k with
  | none =>
    simp only [bump, hl]
    rw [if_neg hk, setOwn_of_lookup_none m k _ hl, sumCounts_append]
    rfl
  | some v =>
    cases v with
    | count n =>
      simp only [bump, hl]
      exact sumCounts_setOwn_count m k n hl
    | garbled =>
      exact absurd rfl (hng (k, ByTypeVal.garbled) (lookupOwn_mem m k _ hl))

/-- `bump` on such a key introduces no garbled entry. -/
theorem bump_nogarbled (m : List (String × ByTypeVal)) (k : String)
    (hk : k ∉ protoKeys) (hng : ∀ e ∈ m, e.2 ≠ ByTypeVal.garbled) :
    ∀ e ∈ bump m k, e.2 ≠ ByTypeVal.garbled := by
  intro e he
  cases hl : lookupOwn m k with
  | none =>
    simp only [bump, hl] at he
    rw [if_neg hk] at he
    rcases mem_setOwn m k _ e he with h | h
    · exact hng e h
    · rw [h]
      intro hc
      cases hc
  | some v =>
    cases v with
    | count n =>
      simp only [bump, hl] at he
      rcases mem_setOwn m k _ e he with h | h
      · exact hng e h
      · rw [h]
        intro hc
        cases hc
    | garbled =>
      exact absurd rfl (hng (k, ByTypeVal.garbled) (lookupOwn_mem m k _ hl))

/-- The `byType` fold counts every record exactly once, provided no stored
issue type collides with an inherited property name. -/
theorem byType_fold_total (cs : List Complaint) : ∀ (m : List (String × ByTypeVal)),
    (∀ c ∈ cs, c.issueType ∉ protoKeys) → (∀ e ∈ m, e.2 ≠ ByTypeVal.garbled) →
    sumCounts (cs.foldl (fun m c => bump m c.issueType) m) = sumCounts m + cs.length := by
  induction cs with
  | nil =>
    intro m _ _
    simp
  | cons c t ih =>
    intro m hcs hng
    have hc : c.issueType ∉ protoKeys := hcs c (List.mem_cons_self _ _)
    have ht : ∀ c' ∈ t, c'.issueType ∉ protoKeys :=
      fun c' h => hcs c' (List.mem_cons_of_mem _ h)
    rw [List.foldl_cons, ih _ ht (bump_nogarbled m c.issueType hc hng),
      bump_sumCounts m c.issueType hc hng, List.length_cons]
    omega

/-- A single complaint is counted by at most one of the four status filters,
by exactly one precisely when its status is in the enumeration. -/
theorem statusIndicator (c : Complaint) :
    ((if c.status == "pending" then 1 else 0) +
      (if c.status == "in-progress" then 1 else 0) +
      (if c.status == "resolved" then 1 else 0) +
      (if c.status == "rejected" then 1 else 0) ≤ 1) ∧
    ((if c.status == "pending" then 1 else 0) +
      (if c.status == "in-progress" then 1 else 0) +
      (if c.status == "resolved" then 1 else 0) +
      (if c.status == "rejected" then 1 else 0) = 1 ↔
      c.status = "pending" ∨ c.status = "in-progress" ∨
        c.status = "resolved" ∨ c.status = "rejected") := by
  by_cases h1 : c.status = "pending"
  · simp [h1]
  · by_cases h2 : c.status = "in-progress"
    · simp [h2]
    · by_cases h3 : c.status = "resolved"
      · simp [h3]
      · by_cases h4 : c.status = "rejected"
        · simp [h4]
        · simp [h1, h2, h3, h4]

/-- The four status counts sum to at most the store size, with equality
exactly when every stored status lies in the enumeration. -/
theorem statusCounts (cs : List Complaint) :
    List.countP (fun c => c.status == "pending") cs +
    List.countP (fun c => c.status == "in-progress") cs +
    List.countP (fun c => c.status == "resolved") cs +
    List.countP (fun c => c.status == "rejected") cs ≤ cs.length ∧
    (List.countP (fun c => c.status == "pending") cs +
      List.countP (fun c => c.status == "in-progress") cs +
      List.countP (fun c => c.status == "resolved") cs +
      List.countP (fun c => c.status == "rejected") cs = cs.length ↔
      ∀ c ∈ cs, c.status = "pending" ∨ c.status = "in-progress" ∨
        c.status = "resolved" ∨ c.status = "rejected") := by
  induction cs with
  | nil => simp
  | cons c t ih =>
    obtain ⟨ih1, ih2⟩ := ih
    obtain ⟨hi1, hi2⟩ := statusIndicator c
    simp only [List.countP_cons, List.length_cons, List.mem_cons, forall_eq_or_imp]
    refine ⟨by omega, ?_, ?_⟩
    · intro he
      refine ⟨hi2.mp (by omega), ih2.mp (by omega)⟩
    · rintro ⟨hc, ht⟩
      have ha := hi2.mpr hc
      have hb := ih2.mpr ht
      omega

/-- A stored complaint whose issue type is the inherited name `__proto__`. -/
def protoComplaint : Complaint :=
  { exComplaint with issueType := "__proto__" }

/-- A stored complaint whose issue type is the inherited name `constructor`. -/
def ctorComplaint : Complaint :=
  { exComplaint with issueType := "constructor" }

/-- A create request carrying `__proto__` as its issue type. -/
def protoReq : SubmitReq :=
  { potholeReq with issueType := some "__proto__", description := "x" }

/-- C10 counterexample.  A complaint with issue type `__proto__` is reachable
through submission (a truthy issue type bypasses both the default and the
fallback), yet the stats of a store holding it have `total = 1` while `byType`
is empty (the assignment through the inherited `__proto__` setter is a silent
no-op), so the sum of the per-type counts is not `total`; with issue type
`constructor` the single `byType` entry is a concatenated string, not a count,
and the sum again misses `total`. -/
theorem stats_proto_counterexample :
    (processSubmit none (Except.error "") (fun _ => none) protoReq 1000 []).issueType
      = "__proto__" ∧
    (getStats [protoComplaint]).total = 1 ∧
    (getStats [protoComplaint]).byType = [] ∧
    sumCounts ((getStats [protoComplaint]).byType) ≠ (getStats [protoComplaint]).total ∧
    (getStats [ctorComplaint]).byType = [("constructor", ByTypeVal.garbled)] ∧
    sumCounts ((getStats [ctorComplaint]).byType) ≠ (getStats [ctorComplaint]).total := by
  refine ⟨by decide, by decide, by decide, by decide, by decide, by decide⟩

/-- C10 (amended).  Stats over any store state: `total` is the store size, the
four per-status counts sum to at most `total` with equality exactly when every
stored status lies in the four-value enumeration, and — provided no stored
issue type collides with an inherited `Object.prototype` property name —
`total` also equals the sum of the per-issue-type counts in `byType`. -/
theorem stats_invariant (cs : List Complaint) :
    (getStats cs).total = cs.length ∧
    ((∀ c ∈ cs, c.issueType ∉ protoKeys) →
      sumCounts ((getStats cs).byType) = (getStats cs).total) ∧
    (getStats cs).pending + (getStats cs).inProgress + (getStats cs).resolved +
      (getStats cs).rejected ≤ (getStats cs).total ∧
    ((getStats cs).pending + (getStats cs).inProgress + (getStats cs).resolved +
      (getStats cs).rejected = (getStats cs).total ↔
      ∀ c ∈ cs, c.status = "pending" ∨ c.status = "in-progress" ∨
        c.status = "resolved" ∨ c.status = "rejected") := by
  have hcount := statusCounts cs
  constructor
  · rfl
  constructor
  · intro h
    show sumCounts (byTypeOf cs) = cs.length
    unfold byTypeOf
    rw [byType_fold_total cs [] h (by intro e he; cases he)]
    simp [sumCounts]
  · show (cs.filter (fun c => c.status == "pending")).length + _ + _ + _ ≤ cs.length ∧ _
    rw [List.countP_eq_length_filter, List.countP_eq_length_filter,
      List.countP_eq_length_filter, List.countP_eq_length_filter] at hcount
    exact hcount

/-- Witness for C10: a store free of inherited-name issue types satisfies the
count equality. -/
theorem stats_invariant_witness :
    (∀ c ∈ [exComplaint], c.issueType ∉ protoKeys) ∧
    sumCounts ((getStats [exComplaint]).byType) = (getStats [exComplaint]).total :=
  ⟨by decide, (stats_invariant [exComplaint]).2.1 (by decide)⟩

/-- Witness for C6: the photo request with no credential classifies like the
photo-less one. -/
theorem vision_failure_never_fatal_witness :
    photoReq.photo = some "p.jpg" ∧
    (fun _ : String => (none : Option AIAnalysis)) (stripFences "x") = none ∧
    analyzeImageWithGemini none (Except.error "boom") (fun _ => none) = none ∧
    (processSubmit none (Except.error "boom") (fun _ => none) photoReq 1000 []).issueType =
      (processSubmit none (Except.error "boom") (fun _ => none)
        { photoReq with photo := none } 1000 []).issueType :=
  ⟨rfl, rfl,
    (vision_failure_never_fatal (Except.error "boom") (fun _ => none) "k" "boom" "x"
      photoReq 1000 [] "p.jpg" rfl rfl).1,
    (vision_failure_never_fatal (Except.error "boom") (fun _ => none) "k" "boom" "x"
      photoReq 1000 [] "p.jpg" rfl rfl).2.2.2.1⟩

